import Mathlib

/-!
# Verification of the feather packet codec framework

Shallow embedding of the wire-protocol codec layer of the `feather` server:

* the primitive wire codecs (`VarInt`, fixed-width integers, `bool`,
  UTF-8 `String`, length-inferred byte payloads) — these live in the
  crate's `io` module, which is not among the given sources, so they are
  modelled from the specification (§4.1 of the spec);
* the schema-driven struct codec generated by the `packets!` macro
  (`src/crates/protocol/src/packets.rs`, lines 37–86);
* the tagged-variant codec generated by `def_enum!` (lines 88–179);
* the packet registry / multiplexer generated by `packet_enum!`
  (lines 181–247) together with the `VariantOf` narrow/widen operations
  (lines 249–261).

Conventions of the embedding:

* Bytes are `Nat` (values < 256 wherever an encoder produced them).
* A byte buffer is a `List Nat`; `write` takes the buffer and returns the
  extended buffer, mirroring `fn write(&self, buffer: &mut Vec<u8>, ...)`.
* A read cursor is modelled by consuming bytes from the front of the list:
  `read` returns the decoded value together with the remaining bytes.
* Rust `i32`/`u8`/`u64` values are represented by their bit patterns as
  `Nat` with explicit bounds (`< 2^32`, `< 256`, `< 2^64`); `i32 ↔ u32`
  is a bijection, so structural equality of patterns coincides with
  structural equality of the Rust values.
* Rust `String` is represented by its UTF-8 byte content (`List Nat`)
  with the validity invariant made explicit.
* `anyhow` errors with `.context(...)` chains are modelled by the
  inductive `CodecError`, whose `context` constructor preserves the cause.
-/

/-- The protocol version token threaded through every codec call
(`crate::ProtocolVersion`). The given codecs accept it but never branch
on it; it is opaque here. -/
def ProtocolVersion : Type := Nat

/-- Error taxonomy of the codec (spec §7). `context` models
`anyhow::Context::context`: it wraps a cause with a message, keeping the
root cause inspectable. -/
inductive CodecError : Type where
  | truncatedInput : CodecError
  | corruptVarInt : CodecError
  | invalidUtf8 : CodecError
  | unknownPacketId (id : Nat) : CodecError
  | unknownVariant (typeName : String) (raw : Nat) : CodecError
  | context (msg : String) (cause : CodecError) : CodecError
deriving DecidableEq, Repr

/-- Strip all `context` wrappers, exposing the root cause of an error. -/
def CodecError.rootCause : CodecError → CodecError
  | .context _ e => e.rootCause
  | e => e

/-- The low-level corruption errors of spec §7: those a truncated input
may legitimately produce. -/
def CodecError.IsCorruption (e : CodecError) : Prop :=
  e = .truncatedInput ∨ e = .invalidUtf8 ∨ e = .corruptVarInt

instance : DecidablePred CodecError.IsCorruption := fun e => by
  unfold CodecError.IsCorruption; infer_instance

/-- The `Result<T, _>` of a read: the decoded value and the remaining bytes
(the cursor after the call). -/
abbrev ReadResult (α : Type) : Type := Except CodecError (α × List Nat)

/-- Model of `anyhow::Context::context` on a `Result`: a failure is
wrapped with `msg`, a success is untouched (`packets.rs` lines 63–64,
123–124, 131–133). -/
def withCtx (msg : String) : ReadResult α → ReadResult α
  | .ok a => .ok a
  | .error e => .error (.context msg e)

/-! ## Primitive wire codecs (modelled from spec §4.1) -/

/-- Modelled from the spec: single-byte read used by the fixed-width
codecs in the crate's `io` module (not among the given sources). Fails
with `TruncatedInput` on an empty cursor. -/
def readByte : List Nat → ReadResult Nat
  | [] => .error .truncatedInput
  | b :: rest => .ok (b, rest)

/-- Modelled from the spec: read exactly `k` raw bytes, failing with
`TruncatedInput` when fewer are available. -/
def readBytes (k : Nat) (l : List Nat) : ReadResult (List Nat) :=
  if k ≤ l.length then .ok (l.take k, l.drop k) else .error .truncatedInput

/-- Big-endian byte decomposition of a `k`-byte unsigned integer
(spec §4.1: fixed-width numerics are direct big-endian encodings). -/
def toBytesBE : Nat → Nat → List Nat
  | 0, _ => []
  | k + 1, v => toBytesBE k (v / 256) ++ [v % 256]

/-- Big-endian recomposition, inverse of `toBytesBE`. -/
def fromBytesBE (l : List Nat) : Nat :=
  l.foldl (fun acc b => acc * 256 + b) 0

/-- Modelled from the spec: the byte group stream of the VarInt encoder
(7 data bits per byte, high bit = continuation, least-significant group
first, minimal group count). -/
def varIntBytes (n : Nat) : List Nat :=
  if n < 128 then [n] else (n % 128 + 128) :: varIntBytes (n / 128)
decreasing_by exact Nat.div_lt_self (by omega) (by omega)

/-- Modelled from the spec: VarInt decode loop. `numRead` counts groups
already consumed; a continuation bit on the fifth group fails with
`CorruptVarInt`, running out of bytes fails with `TruncatedInput`; the
accumulated value is truncated to 32 bits as by `overflowing_shl`. -/
def readVarIntAux : Nat → Nat → List Nat → ReadResult Nat
  | _, _, [] => .error .truncatedInput
  | numRead, acc, b :: rest =>
    let acc' := acc + b % 128 * 128 ^ numRead
    if b % 128 = b then .ok (acc' % 2 ^ 32, rest)
    else if 4 ≤ numRead then .error .corruptVarInt
    else readVarIntAux (numRead + 1) acc' rest

/-- Modelled from the spec: `VarInt::read`. The result is the `u32` bit
pattern of the decoded `i32`. -/
def readVarInt (l : List Nat) : ReadResult Nat :=
  readVarIntAux 0 0 l

/-- Modelled from the spec: `VarInt::write` appends the minimal group
stream of the value's `u32` bit pattern to the buffer. -/
def writeVarInt (n : Nat) (buf : List Nat) : List Nat :=
  buf ++ varIntBytes (n % 2 ^ 32)

/-- Modelled from the spec: `u8::read`. -/
def readU8 (l : List Nat) : ReadResult Nat :=
  readByte l

/-- Modelled from the spec: `u8::write` pushes the byte. -/
def writeU8 (n : Nat) (buf : List Nat) : List Nat :=
  buf ++ [n % 256]

/-- Modelled from the spec: `u64::read`, 8 bytes big-endian. -/
def readU64 (l : List Nat) : ReadResult Nat :=
  match readBytes 8 l with
  | .ok (bs, rest) => .ok (fromBytesBE bs, rest)
  | .error e => .error e

/-- Modelled from the spec: `u64::write`, 8 bytes big-endian. -/
def writeU64 (n : Nat) (buf : List Nat) : List Nat :=
  buf ++ toBytesBE 8 (n % 2 ^ 64)

/-- Modelled from the spec: `bool::read` — one byte, nonzero is `true`. -/
def readBool (l : List Nat) : ReadResult Bool :=
  match readByte l with
  | .ok (b, rest) => .ok (decide (b ≠ 0), rest)
  | .error e => .error e

/-- Modelled from the spec: `bool::write` — `0x01` for true, `0x00` for
false. -/
def writeBool (b : Bool) (buf : List Nat) : List Nat :=
  buf ++ [if b then 1 else 0]

/-- Executable UTF-8 validity check over a byte list, following the
byte-range table of RFC 3629 (what `String::from_utf8` accepts):
no overlong forms, no surrogates, nothing above U+10FFFF. -/
def isValidUtf8 : List Nat → Bool
  | [] => true
  | b :: rest =>
    if b < 0x80 then isValidUtf8 rest
    else if 0xC2 ≤ b ∧ b ≤ 0xDF then
      match rest with
      | c1 :: rest' => decide (0x80 ≤ c1 ∧ c1 ≤ 0xBF) && isValidUtf8 rest'
      | [] => false
    else if 0xE0 ≤ b ∧ b ≤ 0xEF then
      match rest with
      | c1 :: c2 :: rest' =>
        (if b = 0xE0 then decide (0xA0 ≤ c1 ∧ c1 ≤ 0xBF)
         else if b = 0xED then decide (0x80 ≤ c1 ∧ c1 ≤ 0x9F)
         else decide (0x80 ≤ c1 ∧ c1 ≤ 0xBF)) &&
        decide (0x80 ≤ c2 ∧ c2 ≤ 0xBF) && isValidUtf8 rest'
      | _ => false
    else if 0xF0 ≤ b ∧ b ≤ 0xF4 then
      match rest with
      | c1 :: c2 :: c3 :: rest' =>
        (if b = 0xF0 then decide (0x90 ≤ c1 ∧ c1 ≤ 0xBF)
         else if b = 0xF4 then decide (0x80 ≤ c1 ∧ c1 ≤ 0x8F)
         else decide (0x80 ≤ c1 ∧ c1 ≤ 0xBF)) &&
        decide (0x80 ≤ c2 ∧ c2 ≤ 0xBF) &&
        decide (0x80 ≤ c3 ∧ c3 ≤ 0xBF) && isValidUtf8 rest'
      | _ => false
    else false

/-- Modelled from the spec: `String::read` — a VarInt byte-length prefix,
then that many bytes validated as UTF-8 (`InvalidUtf8` on failure). The
decoded string is represented by its UTF-8 byte content. -/
def readString (l : List Nat) : ReadResult (List Nat) :=
  match readVarInt l with
  | .ok (len, r1) =>
    match readBytes len r1 with
    | .ok (bs, r2) => if isValidUtf8 bs then .ok (bs, r2) else .error .invalidUtf8
    | .error e => .error e
  | .error e => .error e

/-- Modelled from the spec: `String::write` — VarInt length prefix then
the UTF-8 bytes. -/
def writeString (s : List Nat) (buf : List Nat) : List Nat :=
  writeVarInt s.length buf ++ s

/-- Modelled from the spec: `LengthInferredVecU8::read` consumes all
remaining bytes in the current read scope. -/
def readLengthInferredVecU8 (l : List Nat) : ReadResult (List Nat) :=
  .ok (l, [])

/-- Modelled from the spec: `LengthInferredVecU8::write` appends the raw
bytes with no prefix. -/
def writeLengthInferredVecU8 (d : List Nat) (buf : List Nat) : List Nat :=
  buf ++ d

/-! ## Tagged-variant codecs generated by `def_enum!`
(`packets.rs` lines 88–179, instantiated in `packets/client/play.rs`) -/

/-- The `ChatMode`, `def_enum!` in `play.rs` lines 45–51. -/
inductive ChatMode : Type where
  | Enabled : ChatMode
  | CommandsOnly : ChatMode
  | Hidden : ChatMode
deriving DecidableEq, Repr

/-- The `def_enum!`-generated `Readable for ChatMode`: read the `VarInt`
discriminant (context-wrapped), dispatch on its literal, fail on an
unmatched value with the enum name and the raw discriminant. -/
def ChatMode.read (l : List Nat) : ReadResult ChatMode :=
  match withCtx "failed to read discriminant for enum type ChatMode" (readVarInt l) with
  | .error e => .error e
  | .ok (discriminant, rest) =>
    if discriminant = 0 then .ok (.Enabled, rest)
    else if discriminant = 1 then .ok (.CommandsOnly, rest)
    else if discriminant = 2 then .ok (.Hidden, rest)
    else .error (.unknownVariant "ChatMode" discriminant)

/-- The `def_enum!`-generated `Writeable for ChatMode`: write the variant's
discriminant as a `VarInt`; no variant has fields. -/
def ChatMode.write (c : ChatMode) (buf : List Nat) : List Nat :=
  match c with
  | .Enabled => writeVarInt 0 buf
  | .CommandsOnly => writeVarInt 1 buf
  | .Hidden => writeVarInt 2 buf

/-- The `ClientStatus`, `def_enum!` in `play.rs` lines 27–32. -/
inductive ClientStatus : Type where
  | PerformRespawn : ClientStatus
  | RequestStats : ClientStatus
deriving DecidableEq, Repr

/-- The `def_enum!`-generated `Readable for ClientStatus`. -/
def ClientStatus.read (l : List Nat) : ReadResult ClientStatus :=
  match withCtx "failed to read discriminant for enum type ClientStatus" (readVarInt l) with
  | .error e => .error e
  | .ok (discriminant, rest) =>
    if discriminant = 0 then .ok (.PerformRespawn, rest)
    else if discriminant = 1 then .ok (.RequestStats, rest)
    else .error (.unknownVariant "ClientStatus" discriminant)

/-- The `def_enum!`-generated `Writeable for ClientStatus`. -/
def ClientStatus.write (c : ClientStatus) (buf : List Nat) : List Nat :=
  match c with
  | .PerformRespawn => writeVarInt 0 buf
  | .RequestStats => writeVarInt 1 buf

/-- The `RecipeBookData`, `def_enum!` in `play.rs` lines 226–242: a variant
with one `String` field and a variant with eight `bool` fields. -/
inductive RecipeBookData : Type where
  | DisplayedRecipe (recipe_id : List Nat) : RecipeBookData
  | RecipeBookStates
      (crafting_open crafting_filter smelting_open smelting_filter
       blasting_open blasting_filter smoking_open smoking_filter : Bool) :
      RecipeBookData
deriving DecidableEq, Repr

/-- The `def_enum!`-generated `Readable for RecipeBookData`: discriminant,
then the matched variant's fields in declared order, each context-wrapped
with field, enum, and variant names. -/
def RecipeBookData.read (l : List Nat) : ReadResult RecipeBookData :=
  match withCtx "failed to read discriminant for enum type RecipeBookData" (readVarInt l) with
  | .error e => .error e
  | .ok (discriminant, rest) =>
    if discriminant = 0 then
      match withCtx "failed to read field `recipe_id` of enum `RecipeBookData::DisplayedRecipe`" (readString rest) with
      | .error e => .error e
      | .ok (recipe_id, rest) => .ok (.DisplayedRecipe recipe_id, rest)
    else if discriminant = 1 then
      match withCtx "failed to read field `crafting_open` of enum `RecipeBookData::RecipeBookStates`" (readBool rest) with
      | .error e => .error e
      | .ok (crafting_open, rest) =>
      match withCtx "failed to read field `crafting_filter` of enum `RecipeBookData::RecipeBookStates`" (readBool rest) with
      | .error e => .error e
      | .ok (crafting_filter, rest) =>
      match withCtx "failed to read field `smelting_open` of enum `RecipeBookData::RecipeBookStates`" (readBool rest) with
      | .error e => .error e
      | .ok (smelting_open, rest) =>
      match withCtx "failed to read field `smelting_filter` of enum `RecipeBookData::RecipeBookStates`" (readBool rest) with
      | .error e => .error e
      | .ok (smelting_filter, rest) =>
      match withCtx "failed to read field `blasting_open` of enum `RecipeBookData::RecipeBookStates`" (readBool rest) with
      | .error e => .error e
      | .ok (blasting_open, rest) =>
      match withCtx "failed to read field `blasting_filter` of enum `RecipeBookData::RecipeBookStates`" (readBool rest) with
      | .error e => .error e
      | .ok (blasting_filter, rest) =>
      match withCtx "failed to read field `smoking_open` of enum `RecipeBookData::RecipeBookStates`" (readBool rest) with
      | .error e => .error e
      | .ok (smoking_open, rest) =>
      match withCtx "failed to read field `smoking_filter` of enum `RecipeBookData::RecipeBookStates`" (readBool rest) with
      | .error e => .error e
      | .ok (smoking_filter, rest) =>
        .ok (.RecipeBookStates crafting_open crafting_filter smelting_open
              smelting_filter blasting_open blasting_filter smoking_open
              smoking_filter, rest)
    else .error (.unknownVariant "RecipeBookData" discriminant)

/-- The `def_enum!`-generated `Writeable for RecipeBookData`: discriminant
first, then the variant's fields in declared order. -/
def RecipeBookData.write (r : RecipeBookData) (buf : List Nat) : List Nat :=
  match r with
  | .DisplayedRecipe recipe_id =>
    let buf := writeVarInt 0 buf
    writeString recipe_id buf
  | .RecipeBookStates crafting_open crafting_filter smelting_open
      smelting_filter blasting_open blasting_filter smoking_open
      smoking_filter =>
    let buf := writeVarInt 1 buf
    let buf := writeBool crafting_open buf
    let buf := writeBool crafting_filter buf
    let buf := writeBool smelting_open buf
    let buf := writeBool smelting_filter buf
    let buf := writeBool blasting_open buf
    let buf := writeBool blasting_filter buf
    let buf := writeBool smoking_open buf
    writeBool smoking_filter buf

/-! ## Packet struct codecs generated by `packets!`
(`packets.rs` lines 37–86, instantiated in `packets/client/play.rs`) -/

/-- The `ClientSettings`, `packets!` in `play.rs` lines 34–43. `locale` is
the UTF-8 byte content of the Rust `String`; `view_distance` and
`displayed_skin_parts` are `u8` patterns; `main_hand` is the `u32` bit
pattern of the `i32` carried by the `VarInt` field. -/
structure ClientSettings : Type where
  locale : List Nat
  view_distance : Nat
  chat_mode : ChatMode
  chat_colors : Bool
  displayed_skin_parts : Nat
  main_hand : Nat
deriving DecidableEq, Repr

/-- The `packets!`-generated `Readable for ClientSettings`: each field is read
in declared order, context-wrapped with the field and packet names. -/
def ClientSettings.read (l : List Nat) : ReadResult ClientSettings :=
  match withCtx "failed to read field `locale` of packet `ClientSettings`" (readString l) with
  | .error e => .error e
  | .ok (locale, l) =>
  match withCtx "failed to read field `view_distance` of packet `ClientSettings`" (readU8 l) with
  | .error e => .error e
  | .ok (view_distance, l) =>
  match withCtx "failed to read field `chat_mode` of packet `ClientSettings`" (ChatMode.read l) with
  | .error e => .error e
  | .ok (chat_mode, l) =>
  match withCtx "failed to read field `chat_colors` of packet `ClientSettings`" (readBool l) with
  | .error e => .error e
  | .ok (chat_colors, l) =>
  match withCtx "failed to read field `displayed_skin_parts` of packet `ClientSettings`" (readU8 l) with
  | .error e => .error e
  | .ok (displayed_skin_parts, l) =>
  match withCtx "failed to read field `main_hand` of packet `ClientSettings`" (readVarInt l) with
  | .error e => .error e
  | .ok (main_hand, l) =>
    .ok ({ locale, view_distance, chat_mode, chat_colors,
           displayed_skin_parts, main_hand }, l)

/-- The `packets!`-generated `Writeable for ClientSettings`: fields written in
declared order into the buffer. -/
def ClientSettings.write (p : ClientSettings) (buf : List Nat) : List Nat :=
  let buf := writeString p.locale buf
  let buf := writeU8 p.view_distance buf
  let buf := ChatMode.write p.chat_mode buf
  let buf := writeBool p.chat_colors buf
  let buf := writeU8 p.displayed_skin_parts buf
  writeVarInt p.main_hand buf

/-- The `KeepAlive`, `packets!` in `play.rs` lines 113–116; `id` is a `u64`
pattern. -/
structure KeepAlive : Type where
  id : Nat
deriving DecidableEq, Repr

/-- The `packets!`-generated `Readable for KeepAlive`. -/
def KeepAlive.read (l : List Nat) : ReadResult KeepAlive :=
  match withCtx "failed to read field `id` of packet `KeepAlive`" (readU64 l) with
  | .error e => .error e
  | .ok (id, l) => .ok ({ id }, l)

/-- The `packets!`-generated `Writeable for KeepAlive`. -/
def KeepAlive.write (p : KeepAlive) (buf : List Nat) : List Nat :=
  writeU64 p.id buf

/-- The `PluginMessage`, `packets!` in `play.rs` lines 83–86: a `String`
channel followed by a trailing length-inferred byte payload. -/
structure PluginMessage : Type where
  channel : List Nat
  data : List Nat
deriving DecidableEq, Repr

/-- The `packets!`-generated `Readable for PluginMessage`. -/
def PluginMessage.read (l : List Nat) : ReadResult PluginMessage :=
  match withCtx "failed to read field `channel` of packet `PluginMessage`" (readString l) with
  | .error e => .error e
  | .ok (channel, l) =>
  match withCtx "failed to read field `data` of packet `PluginMessage`" (readLengthInferredVecU8 l) with
  | .error e => .error e
  | .ok (data, l) => .ok ({ channel, data }, l)

/-- The `packets!`-generated `Writeable for PluginMessage`. -/
def PluginMessage.write (p : PluginMessage) (buf : List Nat) : List Nat :=
  let buf := writeString p.channel buf
  writeLengthInferredVecU8 p.data buf

/-! ## Packet registry / multiplexer generated by `packet_enum!`
(`packets.rs` lines 181–247)

The `packet_enum!` instantiation for the play-phase client→server
direction is not among the given sources (only the macro is); the
registry below is a representative instantiation over the embedded
packet types. -/

/-- Modelled from the spec: the play-phase client→server `PacketRegistry`
(`packet_enum!` applied to the embedded packet types, each bound to a
unique numeric ID). The concrete instantiation is not among the given
sources; the chosen IDs are arbitrary distinct values. -/
inductive ClientPlayPacket : Type where
  | ClientSettings (p : ClientSettings) : ClientPlayPacket
  | PluginMessage (p : PluginMessage) : ClientPlayPacket
  | KeepAlive (p : KeepAlive) : ClientPlayPacket
deriving DecidableEq, Repr

/-- The `packet_enum!`-generated `fn id(&self) -> u32`: the bound numeric ID
of the envelope's runtime variant (`packets.rs` lines 194–203). -/
def ClientPlayPacket.id : ClientPlayPacket → Nat
  | .ClientSettings _ => 5
  | .PluginMessage _ => 11
  | .KeepAlive _ => 16

/-- The `packet_enum!`-generated `Readable` (`packets.rs` lines 205–218):
read a `VarInt` ID, dispatch to the bound packet's codec, fail with the
unknown-ID error when no binding matches. -/
def ClientPlayPacket.read (l : List Nat) : ReadResult ClientPlayPacket :=
  match readVarInt l with
  | .error e => .error e
  | .ok (packet_id, rest) =>
    if packet_id = 5 then
      match ClientSettings.read rest with
      | .ok (p, r) => .ok (.ClientSettings p, r)
      | .error e => .error e
    else if packet_id = 11 then
      match PluginMessage.read rest with
      | .ok (p, r) => .ok (.PluginMessage p, r)
      | .error e => .error e
    else if packet_id = 16 then
      match KeepAlive.read rest with
      | .ok (p, r) => .ok (.KeepAlive p, r)
      | .error e => .error e
    else .error (.unknownPacketId packet_id)

/-- The `packet_enum!`-generated `Writeable` (`packets.rs` lines 220–231):
write `VarInt(self.id())`, then the payload packet's fields. -/
def ClientPlayPacket.write (pk : ClientPlayPacket) (buf : List Nat) : List Nat :=
  let buf := writeVarInt pk.id buf
  match pk with
  | .ClientSettings p => ClientSettings.write p buf
  | .PluginMessage p => PluginMessage.write p buf
  | .KeepAlive p => KeepAlive.write p buf

/-! `VariantOf<ClientPlayPacket>` impls generated per binding
(`packets.rs` lines 233–245): `discriminant_id` is the binding's ID
literal; `destructure` narrows the envelope; the constructor itself is
the infallible widening. -/

/-- The `VariantOf::discriminant_id` for `ClientSettings`. -/
def ClientSettings.discriminant_id : Nat := 5

/-- The `VariantOf::destructure` for `ClientSettings`. -/
def ClientSettings.destructure : ClientPlayPacket → Option ClientSettings
  | .ClientSettings p => some p
  | _ => none

/-- The `VariantOf::discriminant_id` for `PluginMessage`. -/
def PluginMessage.discriminant_id : Nat := 11

/-- The `VariantOf::destructure` for `PluginMessage`. -/
def PluginMessage.destructure : ClientPlayPacket → Option PluginMessage
  | .PluginMessage p => some p
  | _ => none

/-- The `VariantOf::discriminant_id` for `KeepAlive`. -/
def KeepAlive.discriminant_id : Nat := 16

/-- The `VariantOf::destructure` for `KeepAlive`. -/
def KeepAlive.destructure : ClientPlayPacket → Option KeepAlive
  | .KeepAlive p => some p
  | _ => none

/-! ## Representation invariants

A validly constructed Rust value satisfies these by typing: a `String`
holds valid UTF-8 and its length fits the `i32` cast of the length
prefix; a `u8` pattern is < 256; an `i32`/`u32` pattern is < 2^32; a
`u64` pattern is < 2^64. -/

/-- Invariant of a Rust `String` represented by its UTF-8 bytes. -/
def StringValid (s : List Nat) : Prop :=
  isValidUtf8 s = true ∧ s.length < 2 ^ 32

instance : DecidablePred StringValid := fun s => by
  unfold StringValid; infer_instance

/-- Representation invariant of a `ClientSettings` value. -/
def ClientSettings.Valid (p : ClientSettings) : Prop :=
  StringValid p.locale ∧ p.view_distance < 256 ∧
    p.displayed_skin_parts < 256 ∧ p.main_hand < 2 ^ 32

instance : DecidablePred ClientSettings.Valid := fun p => by
  unfold ClientSettings.Valid; infer_instance

/-- Representation invariant of a `KeepAlive` value. -/
def KeepAlive.Valid (p : KeepAlive) : Prop :=
  p.id < 2 ^ 64

instance : DecidablePred KeepAlive.Valid := fun p => by
  unfold KeepAlive.Valid; infer_instance

/-- Representation invariant of a `PluginMessage` value. -/
def PluginMessage.Valid (p : PluginMessage) : Prop :=
  StringValid p.channel

instance : DecidablePred PluginMessage.Valid := fun p => by
  unfold PluginMessage.Valid; infer_instance

/-- Representation invariant of a `RecipeBookData` value. -/
def RecipeBookData.Valid : RecipeBookData → Prop
  | .DisplayedRecipe recipe_id => StringValid recipe_id
  | .RecipeBookStates _ _ _ _ _ _ _ _ => True

instance : DecidablePred RecipeBookData.Valid := fun r => by
  cases r <;> (unfold RecipeBookData.Valid; infer_instance)

/-- Representation invariant of a registry envelope value. -/
def ClientPlayPacket.Valid : ClientPlayPacket → Prop
  | .ClientSettings p => p.Valid
  | .PluginMessage p => p.Valid
  | .KeepAlive p => p.Valid

instance : DecidablePred ClientPlayPacket.Valid := fun pk => by
  cases pk <;> (unfold ClientPlayPacket.Valid; infer_instance)

/-! ## Wire images of the embedded schema types

`<T>Bytes` is the byte string the `Writeable` impl appends for a value;
each `write_eq` lemma proves the buffer-passing writer produces exactly
`buf ++ <T>Bytes v`, i.e. the schema-declared layout. -/

/-- The discriminant literal of a `ChatMode` variant (`play.rs` 45–51). -/
def ChatMode.discriminant : ChatMode → Nat
  | .Enabled => 0
  | .CommandsOnly => 1
  | .Hidden => 2

/-- The discriminant literal of a `ClientStatus` variant. -/
def ClientStatus.discriminant : ClientStatus → Nat
  | .PerformRespawn => 0
  | .RequestStats => 1

/-- The discriminant literal of a `RecipeBookData` variant. -/
def RecipeBookData.discriminant : RecipeBookData → Nat
  | .DisplayedRecipe _ => 0
  | .RecipeBookStates _ _ _ _ _ _ _ _ => 1

/-- Wire image of a `ChatMode` value: just the discriminant VarInt. -/
def chatModeBytes (c : ChatMode) : List Nat :=
  varIntBytes c.discriminant

/-- Wire image of a `ClientSettings` value: its fields in declared
order. -/
def clientSettingsBytes (p : ClientSettings) : List Nat :=
  varIntBytes p.locale.length ++
    (p.locale ++
      ([p.view_distance] ++
        (chatModeBytes p.chat_mode ++
          ([if p.chat_colors then 1 else 0] ++
            ([p.displayed_skin_parts] ++ varIntBytes p.main_hand)))))

/-- Wire image of a `KeepAlive` value. -/
def keepAliveBytes (p : KeepAlive) : List Nat :=
  toBytesBE 8 p.id

/-- Wire image of a `PluginMessage` value. -/
def pluginMessageBytes (p : PluginMessage) : List Nat :=
  varIntBytes p.channel.length ++ (p.channel ++ p.data)

/-- Wire image of a `RecipeBookData` value: discriminant, then the
variant's fields in declared order. -/
def recipeBookDataBytes : RecipeBookData → List Nat
  | .DisplayedRecipe rid =>
    varIntBytes 0 ++ (varIntBytes rid.length ++ rid)
  | .RecipeBookStates b1 b2 b3 b4 b5 b6 b7 b8 =>
    varIntBytes 1 ++
      [if b1 then 1 else 0, if b2 then 1 else 0, if b3 then 1 else 0,
       if b4 then 1 else 0, if b5 then 1 else 0, if b6 then 1 else 0,
       if b7 then 1 else 0, if b8 then 1 else 0]

/-- Wire image of a registry envelope: the bound ID's VarInt, then the
payload packet's fields. -/
def clientPlayPacketBytes : ClientPlayPacket → List Nat
  | .ClientSettings p => varIntBytes 5 ++ clientSettingsBytes p
  | .PluginMessage p => varIntBytes 11 ++ pluginMessageBytes p
  | .KeepAlive p => varIntBytes 16 ++ keepAliveBytes p


instance {ε α : Type} [DecidableEq ε] [DecidableEq α] :
    DecidableEq (Except ε α) := fun a b => by
  cases a <;> cases b
  case ok.ok x y => exact decidable_of_iff (x = y) (by simp)
  case error.error x y => exact decidable_of_iff (x = y) (by simp)
  all_goals exact isFalse (by simp)

/-! ## Scenario values from the specification (§8) -/

/-- The `ClientSettings` scenario instance of spec §8: `locale` is the
UTF-8 bytes of the string of letters e, n, underscore, U, S. -/
def csScenario : ClientSettings :=
  { locale := [101, 110, 95, 85, 83], view_distance := 10,
    chat_mode := .Enabled, chat_colors := true,
    displayed_skin_parts := 0x7F, main_hand := 1 }

/-- The `KeepAlive` scenario instance of spec §8. -/
def kaScenario : KeepAlive := { id := 0x1122334455667788 }


/-! ## VarInt lemmas -/

lemma varIntBytes_unfold (n : Nat) :
    varIntBytes n =
      if n < 128 then [n] else (n % 128 + 128) :: varIntBytes (n / 128) := by
  rw [varIntBytes]

lemma varIntBytes_ne_nil (n : Nat) : varIntBytes n ≠ [] := by
  rw [varIntBytes_unfold]
  split <;> simp

/-- Upper half of minimality: the value fits in the emitted groups. -/
lemma varIntBytes_upper (n : Nat) : n < 128 ^ (varIntBytes n).length := by
  induction n using Nat.strong_induction_on with
  | _ n ih =>
    rw [varIntBytes_unfold]
    split
    · simpa [pow_succ] using by omega
    · rename_i h
      have hd : n / 128 < n := Nat.div_lt_self (by omega) (by omega)
      have h2 := ih (n / 128) hd
      have h3 : n < (n / 128 + 1) * 128 := by omega
      calc n < (n / 128 + 1) * 128 := h3
        _ ≤ 128 ^ (varIntBytes (n / 128)).length * 128 := by
              have : n / 128 + 1 ≤ 128 ^ (varIntBytes (n / 128)).length := h2
              exact Nat.mul_le_mul_right 128 this
        _ = 128 ^ ((varIntBytes (n / 128)).length + 1) := by rw [pow_succ]
        _ = 128 ^ (((n % 128 + 128) :: varIntBytes (n / 128)).length) := by
              simp [List.length_cons]

/-- Lower half of minimality: one group fewer could not hold the value. -/
lemma varIntBytes_lower (n : Nat) (h : 128 ≤ n) :
    128 ^ ((varIntBytes n).length - 1) ≤ n := by
  induction n using Nat.strong_induction_on with
  | _ n ih =>
    rw [varIntBytes_unfold]
    rw [if_neg (by omega)]
    simp only [List.length_cons, Nat.add_sub_cancel]
    by_cases h2 : 128 ≤ n / 128
    · have hd : n / 128 < n := Nat.div_lt_self (by omega) (by omega)
      have h3 := ih (n / 128) hd h2
      have h4 : (varIntBytes (n / 128)).length - 1 + 1 = (varIntBytes (n / 128)).length := by
        have := varIntBytes_ne_nil (n / 128)
        have : (varIntBytes (n / 128)).length ≠ 0 := by
          simpa [List.length_eq_zero] using this
        omega
      calc 128 ^ (varIntBytes (n / 128)).length
          = 128 ^ ((varIntBytes (n / 128)).length - 1) * 128 := by
            rw [← pow_succ, h4]
        _ ≤ n / 128 * 128 := Nat.mul_le_mul_right 128 h3
        _ ≤ n := Nat.div_mul_le_self n 128
    · have : varIntBytes (n / 128) = [n / 128] := by
        rw [varIntBytes_unfold, if_pos (by omega)]
      rw [this]
      simpa using h

lemma varIntBytes_length_le (n : Nat) (h : n < 2 ^ 32) :
    (varIntBytes n).length ≤ 5 := by
  by_contra hlen
  have h1 := varIntBytes_lower n
  by_cases h2 : 128 ≤ n
  · have h3 := h1 h2
    have h4 : (128 : Nat) ^ 5 ≤ 128 ^ ((varIntBytes n).length - 1) :=
      Nat.pow_le_pow_right (by omega) (by omega)
    have : (128 : Nat) ^ 5 = 2 ^ 35 := by norm_num
    have h5 : (2 : Nat) ^ 32 < 2 ^ 35 := by norm_num
    omega
  · have : varIntBytes n = [n] := by rw [varIntBytes_unfold, if_pos (by omega)]
    simp [this] at hlen

/-- Decoding the encoder's group stream, started mid-way with `numRead`
groups already consumed into `acc`, yields the accumulated value and the
untouched suffix. -/
lemma readVarIntAux_encode (n : Nat) :
    ∀ numRead acc rest, n < 128 ^ (5 - numRead) → numRead ≤ 4 →
      acc + n * 128 ^ numRead < 2 ^ 32 →
      readVarIntAux numRead acc (varIntBytes n ++ rest) =
        .ok (acc + n * 128 ^ numRead, rest) := by
  induction n using Nat.strong_induction_on with
  | _ n ih =>
    intro numRead acc rest hn hr hacc
    rw [varIntBytes_unfold]
    by_cases h : n < 128
    · rw [if_pos h]
      have hmod : n % 128 = n := Nat.mod_eq_of_lt h
      simp [readVarIntAux, hmod, Nat.mod_eq_of_lt hacc]
      omega
    · rw [if_neg h]
      have hb : (n % 128 + 128) % 128 = n % 128 := by omega
      have hbne : ¬((n % 128 + 128) % 128 = n % 128 + 128) := by omega
      have hnr : ¬(4 ≤ numRead) := by
        intro hh
        have h4 : numRead = 4 := by omega
        subst h4
        simp at hn
        omega
      simp only [List.cons_append, readVarIntAux, List.append_eq]
      rw [if_neg hbne, if_neg hnr]
      have hd : n / 128 < n := Nat.div_lt_self (by omega) (by omega)
      have key : acc + (n % 128 + 128) % 128 * 128 ^ numRead +
          n / 128 * 128 ^ (numRead + 1) = acc + n * 128 ^ numRead := by
        have h0 : n % 128 + n / 128 * 128 = n := Nat.mod_add_div' n 128
        rw [hb]
        calc acc + n % 128 * 128 ^ numRead + n / 128 * 128 ^ (numRead + 1)
            = acc + (n % 128 + n / 128 * 128) * 128 ^ numRead := by ring
          _ = acc + n * 128 ^ numRead := by rw [h0]
      have hn' : n / 128 < 128 ^ (5 - (numRead + 1)) := by
        have h5 : 5 - numRead = (5 - (numRead + 1)) + 1 := by omega
        rw [h5, pow_succ] at hn
        exact Nat.div_lt_of_lt_mul (by omega)
      rw [ih (n / 128) hd (numRead + 1) (acc + (n % 128 + 128) % 128 * 128 ^ numRead) rest
        hn' (by omega) (by omega : _ < 2 ^ 32)]
      rw [key]

/-- Round trip of the VarInt codec in the presence of any trailing
bytes: decode consumes exactly the encoder's groups. -/
lemma readVarInt_encode (n : Nat) (h : n < 2 ^ 32) (rest : List Nat) :
    readVarInt (varIntBytes n ++ rest) = .ok (n, rest) := by
  have h5 : n < 128 ^ (5 - 0) := by
    have : (128 : Nat) ^ 5 = 2 ^ 35 := by norm_num
    have h35 : (2 : Nat) ^ 32 ≤ 2 ^ 35 := by norm_num
    simpa [this] using by omega
  simpa [readVarInt] using readVarIntAux_encode n 0 0 rest h5 (by omega) (by simpa using h)

lemma writeVarInt_eq (n : Nat) (h : n < 2 ^ 32) (buf : List Nat) :
    writeVarInt n buf = buf ++ varIntBytes n := by
  unfold writeVarInt
  rw [Nat.mod_eq_of_lt h]

/-- Any strict prefix of the encoder's group stream fails to decode:
the cut removes the terminating group, so the reader either runs out of
bytes or hits the five-group limit. -/
lemma readVarIntAux_take (n : Nat) :
    ∀ k numRead acc, k < (varIntBytes n).length →
      ∃ e, readVarIntAux numRead acc ((varIntBytes n).take k) = .error e ∧
        (e = CodecError.truncatedInput ∨ e = CodecError.corruptVarInt) := by
  induction n using Nat.strong_induction_on with
  | _ n ih =>
    intro k numRead acc hk
    rw [varIntBytes_unfold] at hk ⊢
    by_cases h : n < 128
    · rw [if_pos h] at hk ⊢
      simp at hk
      subst hk
      exact ⟨.truncatedInput, by simp [readVarIntAux], Or.inl rfl⟩
    · rw [if_neg h] at hk ⊢
      match k with
      | 0 => exact ⟨.truncatedInput, by simp [readVarIntAux], Or.inl rfl⟩
      | k + 1 =>
        simp only [List.take_succ_cons]
        have hbne : ¬((n % 128 + 128) % 128 = n % 128 + 128) := by omega
        by_cases hnr : 4 ≤ numRead
        · exact ⟨.corruptVarInt, by simp [readVarIntAux, hbne, hnr], Or.inr rfl⟩
        · have hd : n / 128 < n := Nat.div_lt_self (by omega) (by omega)
          have hk' : k < (varIntBytes (n / 128)).length := by
            simpa using hk
          obtain ⟨e, he, hcase⟩ :=
            ih (n / 128) hd k (numRead + 1) (acc + (n % 128 + 128) % 128 * 128 ^ numRead) hk'
          refine ⟨e, ?_, hcase⟩
          simp only [readVarIntAux]
          rw [if_neg hbne, if_neg hnr]
          exact he

/-- A stream opening with five continuation-flagged bytes fails with
`CorruptVarInt` (spec §4.1: a fifth continuation bit is rejected). -/
lemma readVarInt_corrupt (b0 b1 b2 b3 b4 : Nat) (rest : List Nat)
    (h0 : 128 ≤ b0 ∧ b0 < 256) (h1 : 128 ≤ b1 ∧ b1 < 256)
    (h2 : 128 ≤ b2 ∧ b2 < 256) (h3 : 128 ≤ b3 ∧ b3 < 256)
    (h4 : 128 ≤ b4 ∧ b4 < 256) :
    readVarInt (b0 :: b1 :: b2 :: b3 :: b4 :: rest) = .error .corruptVarInt := by
  have e0 : ¬(b0 % 128 = b0) := by omega
  have e1 : ¬(b1 % 128 = b1) := by omega
  have e2 : ¬(b2 % 128 = b2) := by omega
  have e3 : ¬(b3 % 128 = b3) := by omega
  have e4 : ¬(b4 % 128 = b4) := by omega
  simp [readVarInt, readVarIntAux, e0, e1, e2, e3, e4]

/-- The cursor only advances: on success the remaining bytes are a
suffix of the input. -/
lemma readVarIntAux_suffix :
    ∀ (l : List Nat) numRead acc v r,
      readVarIntAux numRead acc l = .ok (v, r) → r <:+ l := by
  intro l
  induction l with
  | nil => intro numRead acc v r h; simp [readVarIntAux] at h
  | cons b rest ih =>
    intro numRead acc v r h
    simp only [readVarIntAux] at h
    by_cases hb : b % 128 = b
    · rw [if_pos hb] at h
      simp at h
      exact h.2 ▸ List.suffix_cons b rest
    · rw [if_neg hb] at h
      by_cases hnr : 4 ≤ numRead
      · simp [hnr] at h
      · rw [if_neg hnr] at h
        exact (ih _ _ _ _ h).trans (List.suffix_cons b rest)

lemma readVarInt_suffix (l : List Nat) (v : Nat) (r : List Nat)
    (h : readVarInt l = .ok (v, r)) : r <:+ l :=
  readVarIntAux_suffix l 0 0 v r h

/-! ## Helper lemmas for the other primitives -/

lemma rootCause_context (msg : String) (e : CodecError) :
    (CodecError.context msg e).rootCause = e.rootCause := by
  simp [CodecError.rootCause]

lemma withCtx_ok (msg : String) (a : α × List Nat) :
    withCtx msg (.ok a) = .ok a := rfl

lemma withCtx_error (msg : String) (e : CodecError) :
    withCtx msg (.error e : ReadResult α) = .error (.context msg e) := rfl

lemma withCtx_eq_ok {msg : String} {r : ReadResult α} {a : α × List Nat} :
    withCtx msg r = .ok a ↔ r = .ok a := by
  cases r <;> simp [withCtx]

/-- Splitting a strict-prefix cut of a concatenation: the cut lands
inside the first part, or the first part survives whole and the cut
lands inside the second. -/
lemma take_append_split (a b : List Nat) (k : Nat) (h : k < (a ++ b).length) :
    (k < a.length ∧ (a ++ b).take k = a.take k) ∨
    (∃ k', k = a.length + k' ∧ k' < b.length ∧
      (a ++ b).take k = a ++ b.take k') := by
  by_cases hk : k < a.length
  · left
    exact ⟨hk, List.take_append_of_le_length (by omega)⟩
  · right
    refine ⟨k - a.length, by omega, ?_, ?_⟩
    · simp only [List.length_append] at h
      omega
    · rw [List.take_append_eq_append_take,
        List.take_of_length_le (by omega)]

lemma readByte_cons (b : Nat) (rest : List Nat) :
    readByte (b :: rest) = .ok (b, rest) := rfl

lemma readByte_suffix {l : List Nat} {v : Nat} {r : List Nat}
    (h : readByte l = .ok (v, r)) : r <:+ l := by
  cases l with
  | nil => simp [readByte] at h
  | cons b rest =>
    simp [readByte] at h
    exact h.2 ▸ List.suffix_cons b rest

lemma readBytes_append (bs rest : List Nat) :
    readBytes bs.length (bs ++ rest) = .ok (bs, rest) := by
  rw [readBytes, if_pos (by simp)]
  rw [List.take_left, List.drop_left]

lemma readBytes_short (k : Nat) (l : List Nat) (h : l.length < k) :
    readBytes k l = .error .truncatedInput := by
  rw [readBytes, if_neg (by omega)]

lemma readBytes_suffix {k : Nat} {l bs r : List Nat}
    (h : readBytes k l = .ok (bs, r)) : r <:+ l := by
  rw [readBytes] at h
  by_cases hk : k ≤ l.length
  · rw [if_pos hk] at h
    simp at h
    exact h.2 ▸ List.drop_suffix k l
  · rw [if_neg hk] at h
    simp at h

lemma toBytesBE_length (k v : Nat) : (toBytesBE k v).length = k := by
  induction k generalizing v with
  | zero => simp [toBytesBE]
  | succ k ih => simp [toBytesBE, ih]

lemma fromBytesBE_append_singleton (xs : List Nat) (b : Nat) :
    fromBytesBE (xs ++ [b]) = fromBytesBE xs * 256 + b := by
  simp [fromBytesBE, List.foldl_append]

lemma fromBytesBE_toBytesBE (k v : Nat) (h : v < 256 ^ k) :
    fromBytesBE (toBytesBE k v) = v := by
  induction k generalizing v with
  | zero =>
    simp [toBytesBE, fromBytesBE]
    omega
  | succ k ih =>
    rw [toBytesBE, fromBytesBE_append_singleton]
    rw [ih (v / 256) (by rw [pow_succ] at h; exact Nat.div_lt_of_lt_mul (by omega))]
    omega

lemma readU64_encode (v : Nat) (h : v < 2 ^ 64) (rest : List Nat) :
    readU64 (toBytesBE 8 v ++ rest) = .ok (v, rest) := by
  rw [readU64]
  have h8 : readBytes 8 (toBytesBE 8 v ++ rest) = .ok (toBytesBE 8 v, rest) := by
    have hr := readBytes_append (toBytesBE 8 v) rest
    rwa [toBytesBE_length] at hr
  rw [h8]
  show Except.ok (fromBytesBE (toBytesBE 8 v), rest) = Except.ok (v, rest)
  rw [fromBytesBE_toBytesBE 8 v (by norm_num at h ⊢; omega)]

lemma writeU64_eq (v : Nat) (h : v < 2 ^ 64) (buf : List Nat) :
    writeU64 v buf = buf ++ toBytesBE 8 v := by
  unfold writeU64
  rw [Nat.mod_eq_of_lt h]

lemma readU64_take (v k : Nat) (hk : k < 8) :
    readU64 ((toBytesBE 8 v).take k) = .error .truncatedInput := by
  rw [readU64, readBytes_short]
  have := toBytesBE_length 8 v
  simp [List.length_take, this]
  omega

lemma readU64_suffix {l : List Nat} {v : Nat} {r : List Nat}
    (h : readU64 l = .ok (v, r)) : r <:+ l := by
  rw [readU64] at h
  cases hb : readBytes 8 l with
  | ok p =>
    rw [hb] at h
    simp at h
    exact h.2 ▸ readBytes_suffix hb
  | error e => rw [hb] at h; simp at h

lemma readBool_write (b : Bool) (rest : List Nat) :
    readBool (writeBool b [] ++ rest) = .ok (b, rest) := by
  cases b <;> simp [readBool, writeBool, readByte]

lemma readBool_suffix {l : List Nat} {v : Bool} {r : List Nat}
    (h : readBool l = .ok (v, r)) : r <:+ l := by
  rw [readBool] at h
  cases hb : readByte l with
  | ok p =>
    rw [hb] at h
    simp at h
    exact h.2 ▸ readByte_suffix (by rw [hb])
  | error e => rw [hb] at h; simp at h

lemma writeU8_eq (v : Nat) (h : v < 256) (buf : List Nat) :
    writeU8 v buf = buf ++ [v] := by
  unfold writeU8
  rw [Nat.mod_eq_of_lt h]

lemma readU8_cons (b : Nat) (rest : List Nat) :
    readU8 (b :: rest) = .ok (b, rest) := rfl

lemma readU8_nil : readU8 [] = .error .truncatedInput := rfl

lemma writeString_eq (s : List Nat) (h : s.length < 2 ^ 32) (buf : List Nat) :
    writeString s buf = buf ++ (varIntBytes s.length ++ s) := by
  unfold writeString
  rw [writeVarInt_eq s.length h, List.append_assoc]

lemma readString_encode (s : List Nat) (hv : isValidUtf8 s = true)
    (hl : s.length < 2 ^ 32) (rest : List Nat) :
    readString (varIntBytes s.length ++ (s ++ rest)) = .ok (s, rest) := by
  unfold readString
  rw [readVarInt_encode s.length hl (s ++ rest)]
  simp [readBytes_append, hv]

/-- A strict prefix of a string encoding fails: the cut lands either in
the VarInt length prefix or before the announced byte count is met. -/
lemma readString_take (s : List Nat) (k : Nat) (hl : s.length < 2 ^ 32)
    (hk : k < (varIntBytes s.length ++ s).length) :
    ∃ e, readString ((varIntBytes s.length ++ s).take k) = .error e ∧
      (e = CodecError.truncatedInput ∨ e = CodecError.corruptVarInt) := by
  rcases take_append_split _ _ k hk with ⟨hk1, heq⟩ | ⟨k', hk', hks, heq⟩
  · rw [heq]
    obtain ⟨e, he, hc⟩ := readVarIntAux_take s.length k 0 0 hk1
    refine ⟨e, ?_, hc⟩
    unfold readString readVarInt
    rw [he]
  · rw [heq]
    refine ⟨.truncatedInput, ?_, Or.inl rfl⟩
    unfold readString
    rw [readVarInt_encode s.length hl (s.take k')]
    have hshort : readBytes s.length (s.take k') = .error .truncatedInput :=
      readBytes_short _ _ (by simp [List.length_take]; omega)
    simp [hshort]

lemma readString_suffix {l s r : List Nat}
    (h : readString l = .ok (s, r)) : r <:+ l := by
  unfold readString at h
  split at h
  · rename_i len r1 h1
    split at h
    · rename_i bs r2 h2
      split at h
      · simp at h
        exact h.2 ▸ ((readBytes_suffix h2).trans (readVarInt_suffix l len r1 h1))
      · simp at h
    · simp at h
  · simp at h

lemma readLengthInferredVecU8_suffix {l d r : List Nat}
    (h : readLengthInferredVecU8 l = .ok (d, r)) : r <:+ l := by
  unfold readLengthInferredVecU8 at h
  simp at h
  rw [h.2]
  exact List.nil_suffix

lemma chatMode_write_eq (c : ChatMode) (buf : List Nat) :
    c.write buf = buf ++ chatModeBytes c := by
  cases c <;>
    simp [ChatMode.write, chatModeBytes, ChatMode.discriminant, writeVarInt]

lemma clientStatus_write_eq (c : ClientStatus) (buf : List Nat) :
    c.write buf = buf ++ varIntBytes c.discriminant := by
  cases c <;>
    simp [ClientStatus.write, ClientStatus.discriminant, writeVarInt]

lemma clientSettings_write_eq (p : ClientSettings) (hp : p.Valid)
    (buf : List Nat) :
    p.write buf = buf ++ clientSettingsBytes p := by
  obtain ⟨⟨hv, hl⟩, hvd, hsp, hmh⟩ := hp
  simp only [ClientSettings.write, clientSettingsBytes]
  rw [writeString_eq p.locale hl, writeU8_eq p.view_distance hvd,
    chatMode_write_eq, writeU8_eq p.displayed_skin_parts hsp,
    writeVarInt_eq p.main_hand hmh]
  simp [writeBool, List.append_assoc]

lemma keepAlive_write_eq (p : KeepAlive) (hp : p.Valid) (buf : List Nat) :
    p.write buf = buf ++ keepAliveBytes p := by
  simp only [KeepAlive.write, keepAliveBytes]
  rw [writeU64_eq p.id hp]

lemma pluginMessage_write_eq (p : PluginMessage) (hp : p.Valid)
    (buf : List Nat) :
    p.write buf = buf ++ pluginMessageBytes p := by
  obtain ⟨hv, hl⟩ := hp
  simp only [PluginMessage.write, pluginMessageBytes,
    writeLengthInferredVecU8]
  rw [writeString_eq p.channel hl]
  simp [List.append_assoc]

lemma recipeBookData_write_eq (r : RecipeBookData) (hr : r.Valid)
    (buf : List Nat) :
    r.write buf = buf ++ recipeBookDataBytes r := by
  cases r with
  | DisplayedRecipe rid =>
    obtain ⟨hv, hl⟩ := hr
    simp only [RecipeBookData.write, recipeBookDataBytes]
    rw [writeVarInt_eq 0 (by norm_num), writeString_eq rid hl]
    simp [List.append_assoc]
  | RecipeBookStates b1 b2 b3 b4 b5 b6 b7 b8 =>
    simp only [RecipeBookData.write, recipeBookDataBytes]
    rw [writeVarInt_eq 1 (by norm_num)]
    simp [writeBool, List.append_assoc]

lemma clientPlayPacket_write_eq (pk : ClientPlayPacket) (hpk : pk.Valid)
    (buf : List Nat) :
    pk.write buf = buf ++ clientPlayPacketBytes pk := by
  cases pk with
  | ClientSettings p =>
    simp only [ClientPlayPacket.write, clientPlayPacketBytes,
      ClientPlayPacket.id]
    rw [writeVarInt_eq 5 (by norm_num), clientSettings_write_eq p hpk]
    simp [List.append_assoc]
  | PluginMessage p =>
    simp only [ClientPlayPacket.write, clientPlayPacketBytes,
      ClientPlayPacket.id]
    rw [writeVarInt_eq 11 (by norm_num), pluginMessage_write_eq p hpk]
    simp [List.append_assoc]
  | KeepAlive p =>
    simp only [ClientPlayPacket.write, clientPlayPacketBytes,
      ClientPlayPacket.id]
    rw [writeVarInt_eq 16 (by norm_num), keepAlive_write_eq p hpk]
    simp [List.append_assoc]

lemma readBool_ite (b : Bool) (rest : List Nat) :
    readBool ((if b then 1 else 0) :: rest) = .ok (b, rest) := by
  cases b <;> simp [readBool, readByte]

lemma chatMode_read_encode (c : ChatMode) (rest : List Nat) :
    ChatMode.read (chatModeBytes c ++ rest) = .ok (c, rest) := by
  cases c
  all_goals simp only [chatModeBytes, ChatMode.discriminant, ChatMode.read]
  · rw [readVarInt_encode 0 (by norm_num) rest]; simp [withCtx]
  · rw [readVarInt_encode 1 (by norm_num) rest]; simp [withCtx]
  · rw [readVarInt_encode 2 (by norm_num) rest]; simp [withCtx]

lemma clientStatus_read_encode (c : ClientStatus) (rest : List Nat) :
    ClientStatus.read (varIntBytes c.discriminant ++ rest) = .ok (c, rest) := by
  cases c
  all_goals simp only [ClientStatus.discriminant, ClientStatus.read]
  · rw [readVarInt_encode 0 (by norm_num) rest]; simp [withCtx]
  · rw [readVarInt_encode 1 (by norm_num) rest]; simp [withCtx]

lemma clientSettings_read_encode (p : ClientSettings) (hp : p.Valid)
    (rest : List Nat) :
    ClientSettings.read (clientSettingsBytes p ++ rest) = .ok (p, rest) := by
  obtain ⟨⟨hv, hl⟩, hvd, hsp, hmh⟩ := hp
  simp only [clientSettingsBytes, List.append_assoc, List.singleton_append,
    List.cons_append]
  simp [ClientSettings.read, readString_encode p.locale hv hl, withCtx_ok,
    readU8_cons, chatMode_read_encode, readBool_ite,
    readVarInt_encode p.main_hand hmh]

lemma keepAlive_read_encode (p : KeepAlive) (hp : p.Valid)
    (rest : List Nat) :
    KeepAlive.read (keepAliveBytes p ++ rest) = .ok (p, rest) := by
  simp [keepAliveBytes, KeepAlive.read, readU64_encode p.id hp, withCtx_ok]

lemma pluginMessage_read_encode (p : PluginMessage) (hp : p.Valid) :
    PluginMessage.read (pluginMessageBytes p) = .ok (p, []) := by
  obtain ⟨hv, hl⟩ := hp
  simp [pluginMessageBytes, PluginMessage.read,
    readString_encode p.channel hv hl, withCtx_ok, readLengthInferredVecU8]

lemma recipeBookData_read_encode (r : RecipeBookData) (hr : r.Valid)
    (rest : List Nat) :
    RecipeBookData.read (recipeBookDataBytes r ++ rest) = .ok (r, rest) := by
  cases r with
  | DisplayedRecipe rid =>
    obtain ⟨hv, hl⟩ := hr
    simp only [recipeBookDataBytes, List.append_assoc]
    simp only [RecipeBookData.read]
    rw [readVarInt_encode 0 (by norm_num)]
    simp [withCtx, readString_encode rid hv hl]
  | RecipeBookStates b1 b2 b3 b4 b5 b6 b7 b8 =>
    simp only [recipeBookDataBytes, List.append_assoc, List.cons_append,
      List.nil_append]
    simp only [RecipeBookData.read]
    rw [readVarInt_encode 1 (by norm_num)]
    simp [withCtx, readBool_ite]

lemma clientPlayPacket_read_encode (pk : ClientPlayPacket) (hpk : pk.Valid)
    (rest : List Nat) (hpm : ∀ p, pk = .PluginMessage p → rest = []) :
    ClientPlayPacket.read (clientPlayPacketBytes pk ++ rest) = .ok (pk, rest) := by
  cases pk with
  | ClientSettings p =>
    simp only [clientPlayPacketBytes, List.append_assoc]
    simp only [ClientPlayPacket.read]
    rw [readVarInt_encode 5 (by norm_num)]
    simp [clientSettings_read_encode p hpk rest]
  | PluginMessage p =>
    have hr : rest = [] := hpm p rfl
    subst hr
    simp only [clientPlayPacketBytes, List.append_nil, List.append_assoc]
    simp only [ClientPlayPacket.read]
    rw [readVarInt_encode 11 (by norm_num)]
    simp [pluginMessage_read_encode p hpk]
  | KeepAlive p =>
    simp only [clientPlayPacketBytes, List.append_assoc]
    simp only [ClientPlayPacket.read]
    rw [readVarInt_encode 16 (by norm_num)]
    simp [keepAlive_read_encode p hpk rest]

/-! ## Cursor monotonicity of the composite readers -/

lemma chatMode_read_suffix {l : List Nat} {c : ChatMode} {r : List Nat}
    (h : ChatMode.read l = .ok (c, r)) : r <:+ l := by
  unfold ChatMode.read at h
  split at h
  · simp at h
  · rename_i d rest h1
    have h1' : readVarInt l = .ok (d, rest) := withCtx_eq_ok.mp h1
    split_ifs at h <;> simp at h <;>
      exact h.2 ▸ readVarInt_suffix l d rest h1'

lemma clientSettings_read_suffix {l : List Nat} {p : ClientSettings}
    {r : List Nat} (h : ClientSettings.read l = .ok (p, r)) : r <:+ l := by
  unfold ClientSettings.read at h
  split at h
  · simp at h
  rename_i locale l1 h1
  split at h
  · simp at h
  rename_i vd l2 h2
  split at h
  · simp at h
  rename_i cm l3 h3
  split at h
  · simp at h
  rename_i cc l4 h4
  split at h
  · simp at h
  rename_i sp l5 h5
  split at h
  · simp at h
  rename_i mh l6 h6
  simp at h
  have s1 := readString_suffix (withCtx_eq_ok.mp h1)
  have s2 := readByte_suffix (withCtx_eq_ok.mp h2)
  have s3 := chatMode_read_suffix (withCtx_eq_ok.mp h3)
  have s4 := readBool_suffix (withCtx_eq_ok.mp h4)
  have s5 := readByte_suffix (withCtx_eq_ok.mp h5)
  have s6 := readVarIntAux_suffix l5 0 0 mh l6 (withCtx_eq_ok.mp h6)
  exact h.2 ▸ (s6.trans (s5.trans (s4.trans (s3.trans (s2.trans s1)))))

lemma keepAlive_read_suffix {l : List Nat} {p : KeepAlive} {r : List Nat}
    (h : KeepAlive.read l = .ok (p, r)) : r <:+ l := by
  unfold KeepAlive.read at h
  split at h
  · simp at h
  rename_i v l1 h1
  simp at h
  exact h.2 ▸ readU64_suffix (withCtx_eq_ok.mp h1)

lemma pluginMessage_read_suffix {l : List Nat} {p : PluginMessage}
    {r : List Nat} (h : PluginMessage.read l = .ok (p, r)) : r <:+ l := by
  unfold PluginMessage.read at h
  split at h
  · simp at h
  rename_i ch l1 h1
  split at h
  · simp at h
  rename_i d l2 h2
  simp at h
  have s1 := readString_suffix (withCtx_eq_ok.mp h1)
  have s2 := readLengthInferredVecU8_suffix (withCtx_eq_ok.mp h2)
  exact h.2 ▸ (s2.trans s1)

lemma clientPlayPacket_read_suffix {l : List Nat} {pk : ClientPlayPacket}
    {r : List Nat} (h : ClientPlayPacket.read l = .ok (pk, r)) : r <:+ l := by
  unfold ClientPlayPacket.read at h
  split at h
  · simp at h
  rename_i packet_id rest1 h1
  have hs1 := readVarInt_suffix l packet_id rest1 h1
  split_ifs at h
  · split at h
    · rename_i p rr h2
      simp at h
      exact h.2 ▸ ((clientSettings_read_suffix h2).trans hs1)
    · simp at h
  · split at h
    · rename_i p rr h2
      simp at h
      exact h.2 ▸ ((pluginMessage_read_suffix h2).trans hs1)
    · simp at h
  · split at h
    · rename_i p rr h2
      simp at h
      exact h.2 ▸ ((keepAlive_read_suffix h2).trans hs1)
    · simp at h

/-! ## Truncation behaviour of the packet readers -/

lemma chatModeBytes_eq (c : ChatMode) :
    chatModeBytes c = [c.discriminant] := by
  cases c <;>
    simp [chatModeBytes, ChatMode.discriminant, varIntBytes_unfold]

lemma ChatMode.read_cons (c : ChatMode) (rest : List Nat) :
    ChatMode.read (c.discriminant :: rest) = .ok (c, rest) := by
  have h := chatMode_read_encode c rest
  rw [chatModeBytes_eq] at h
  simpa using h

lemma ChatMode.read_nil :
    ChatMode.read [] =
      .error (.context "failed to read discriminant for enum type ChatMode"
        .truncatedInput) := by
  simp [ChatMode.read, readVarInt, readVarIntAux, withCtx]

lemma readBool_nil : readBool [] = .error .truncatedInput := rfl

lemma keepAlive_read_take (p : KeepAlive) (k : Nat)
    (hk : k < (keepAliveBytes p).length) :
    KeepAlive.read ((keepAliveBytes p).take k) =
      .error (.context "failed to read field `id` of packet `KeepAlive`"
        .truncatedInput) := by
  have hk8 : k < 8 := by
    simpa [keepAliveBytes, toBytesBE_length] using hk
  unfold KeepAlive.read keepAliveBytes
  rw [readU64_take p.id k hk8]
  simp [withCtx]

lemma clientSettings_read_take (p : ClientSettings) (hp : p.Valid) (k : Nat)
    (hk : k < (clientSettingsBytes p).length) :
    ∃ e, ClientSettings.read ((clientSettingsBytes p).take k) = .error e ∧
      CodecError.IsCorruption e.rootCause := by
  obtain ⟨⟨hv, hl⟩, hvd, hsp, hmh⟩ := hp
  have hbytes : clientSettingsBytes p =
      (varIntBytes p.locale.length ++ p.locale) ++
        (p.view_distance :: (p.chat_mode.discriminant ::
          ((if p.chat_colors then 1 else 0) :: (p.displayed_skin_parts ::
            varIntBytes p.main_hand)))) := by
    simp [clientSettingsBytes, chatModeBytes_eq, List.append_assoc]
  rw [hbytes] at hk ⊢
  rcases take_append_split _ _ k hk with ⟨hk1, heq⟩ | ⟨k', hk', hks, heq⟩
  · rw [heq]
    obtain ⟨e, he, hc⟩ := readString_take p.locale k hl hk1
    refine ⟨.context "failed to read field `locale` of packet `ClientSettings`" e,
      ?_, ?_⟩
    · unfold ClientSettings.read
      rw [he]
      simp [withCtx]
    · rcases hc with h | h <;>
        simp [h, CodecError.rootCause, CodecError.IsCorruption]
  · rw [heq]
    have hstr := fun rest =>
      readString_encode p.locale hv hl rest
    rcases k' with _ | (_ | (_ | (_ | j)))
    · refine ⟨.context "failed to read field `view_distance` of packet `ClientSettings`"
        .truncatedInput, ?_, by simp [CodecError.rootCause, CodecError.IsCorruption]⟩
      unfold ClientSettings.read
      simp only [List.take_zero, List.append_nil, List.append_assoc]
      have h0 : readString (varIntBytes p.locale.length ++ p.locale) =
          .ok (p.locale, []) := by simpa using hstr []
      rw [h0]
      simp [withCtx, readU8, readByte]
    · refine ⟨.context "failed to read field `chat_mode` of packet `ClientSettings`"
        (.context "failed to read discriminant for enum type ChatMode"
          .truncatedInput), ?_,
        by simp [CodecError.rootCause, CodecError.IsCorruption]⟩
      unfold ClientSettings.read
      simp only [List.take_succ_cons, List.take_zero, List.append_assoc,
        List.cons_append, List.nil_append]
      rw [hstr [p.view_distance]]
      simp [withCtx, readU8_cons, ChatMode.read_nil]
    · refine ⟨.context "failed to read field `chat_colors` of packet `ClientSettings`"
        .truncatedInput, ?_,
        by simp [CodecError.rootCause, CodecError.IsCorruption]⟩
      unfold ClientSettings.read
      simp only [List.take_succ_cons, List.take_zero, List.append_assoc,
        List.cons_append, List.nil_append]
      rw [hstr [p.view_distance, p.chat_mode.discriminant]]
      simp [withCtx, readU8_cons, ChatMode.read_cons, readBool_nil]
    · refine ⟨.context "failed to read field `displayed_skin_parts` of packet `ClientSettings`"
        .truncatedInput, ?_,
        by simp [CodecError.rootCause, CodecError.IsCorruption]⟩
      unfold ClientSettings.read
      simp only [List.take_succ_cons, List.take_zero, List.append_assoc,
        List.cons_append, List.nil_append]
      rw [hstr [p.view_distance, p.chat_mode.discriminant,
        if p.chat_colors then 1 else 0]]
      simp [withCtx, readU8, readByte, ChatMode.read_cons, readBool_ite]
    · have hj : j < (varIntBytes p.main_hand).length := by
        simp at hks
        omega
      obtain ⟨e, he, hc⟩ := readVarIntAux_take p.main_hand j 0 0 hj
      refine ⟨.context "failed to read field `main_hand` of packet `ClientSettings`" e,
        ?_, ?_⟩
      · unfold ClientSettings.read
        simp only [List.take_succ_cons, List.append_assoc, List.cons_append,
          List.nil_append]
        have he' : readVarInt ((varIntBytes p.main_hand).take j) = .error e := he
        rw [hstr (p.view_distance :: (p.chat_mode.discriminant ::
          ((if p.chat_colors then 1 else 0) :: (p.displayed_skin_parts ::
            (varIntBytes p.main_hand).take j))))]
        simp [withCtx, readU8_cons, ChatMode.read_cons, readBool_ite, he']
      · rcases hc with h | h <;>
          simp [h, CodecError.rootCause, CodecError.IsCorruption]

/-! ## Unknown discriminants and unknown packet IDs -/

lemma chatMode_read_unknown (d : Nat) (hd : d < 2 ^ 32)
    (h0 : d ≠ 0) (h1 : d ≠ 1) (h2 : d ≠ 2) (rest : List Nat) :
    ChatMode.read (varIntBytes d ++ rest) =
      .error (.unknownVariant "ChatMode" d) := by
  unfold ChatMode.read
  rw [readVarInt_encode d hd rest]
  simp [withCtx, h0, h1, h2]

lemma recipeBookData_read_unknown (d : Nat) (hd : d < 2 ^ 32)
    (h0 : d ≠ 0) (h1 : d ≠ 1) (rest : List Nat) :
    RecipeBookData.read (varIntBytes d ++ rest) =
      .error (.unknownVariant "RecipeBookData" d) := by
  unfold RecipeBookData.read
  rw [readVarInt_encode d hd rest]
  simp [withCtx, h0, h1]

lemma clientPlayPacket_read_unknown (id : Nat) (hd : id < 2 ^ 32)
    (h5 : id ≠ 5) (h11 : id ≠ 11) (h16 : id ≠ 16) (rest : List Nat) :
    ClientPlayPacket.read (varIntBytes id ++ rest) =
      .error (.unknownPacketId id) := by
  unfold ClientPlayPacket.read
  rw [readVarInt_encode id hd rest]
  simp [h5, h11, h16]

/-! ## Writes only append -/

lemma chatMode_write_shift (c : ChatMode) (buf : List Nat) :
    c.write buf = buf ++ c.write [] := by
  rw [chatMode_write_eq, chatMode_write_eq]
  simp

lemma clientStatus_write_shift (c : ClientStatus) (buf : List Nat) :
    c.write buf = buf ++ c.write [] := by
  rw [clientStatus_write_eq, clientStatus_write_eq]
  simp

lemma clientSettings_write_shift (p : ClientSettings) (buf : List Nat) :
    p.write buf = buf ++ p.write [] := by
  simp [ClientSettings.write, writeString, writeVarInt, writeU8, writeBool,
    chatMode_write_eq, List.append_assoc]

lemma keepAlive_write_shift (p : KeepAlive) (buf : List Nat) :
    p.write buf = buf ++ p.write [] := by
  simp [KeepAlive.write, writeU64]

lemma pluginMessage_write_shift (p : PluginMessage) (buf : List Nat) :
    p.write buf = buf ++ p.write [] := by
  simp [PluginMessage.write, writeString, writeVarInt,
    writeLengthInferredVecU8, List.append_assoc]

lemma recipeBookData_write_shift (r : RecipeBookData) (buf : List Nat) :
    r.write buf = buf ++ r.write [] := by
  cases r <;>
    simp [RecipeBookData.write, writeString, writeVarInt, writeBool,
      List.append_assoc]

lemma clientPlayPacket_write_shift (pk : ClientPlayPacket) (buf : List Nat) :
    pk.write buf = buf ++ pk.write [] := by
  cases pk <;>
    simp [ClientPlayPacket.write, ClientPlayPacket.id, ClientSettings.write,
      PluginMessage.write, KeepAlive.write, writeString, writeVarInt, writeU8,
      writeBool, writeU64, writeLengthInferredVecU8, chatMode_write_eq,
      List.append_assoc]

/-! ## Claims -/

/-- C1: for every embedded packet and enum type and every validly
constructed instance `x`, decoding the bytes produced by encoding `x`
succeeds and returns a value structurally equal to `x`, including
variant identity and every field value. -/
theorem c1_roundtrip_identity :
    (∀ p : ClientSettings, p.Valid →
      ClientSettings.read (p.write []) = .ok (p, [])) ∧
    (∀ p : KeepAlive, p.Valid →
      KeepAlive.read (p.write []) = .ok (p, [])) ∧
    (∀ p : PluginMessage, p.Valid →
      PluginMessage.read (p.write []) = .ok (p, [])) ∧
    (∀ c : ChatMode, ChatMode.read (c.write []) = .ok (c, [])) ∧
    (∀ c : ClientStatus, ClientStatus.read (c.write []) = .ok (c, [])) ∧
    (∀ r : RecipeBookData, r.Valid →
      RecipeBookData.read (r.write []) = .ok (r, [])) ∧
    (∀ pk : ClientPlayPacket, pk.Valid →
      ClientPlayPacket.read (pk.write []) = .ok (pk, [])) := by
  refine ⟨fun p hp => ?_, fun p hp => ?_, fun p hp => ?_, fun c => ?_,
    fun c => ?_, fun r hr => ?_, fun pk hpk => ?_⟩
  · rw [clientSettings_write_eq p hp]
    simpa using clientSettings_read_encode p hp []
  · rw [keepAlive_write_eq p hp]
    simpa using keepAlive_read_encode p hp []
  · rw [pluginMessage_write_eq p hp]
    simpa using pluginMessage_read_encode p hp
  · rw [chatMode_write_eq]
    simpa using chatMode_read_encode c []
  · rw [clientStatus_write_eq]
    simpa using clientStatus_read_encode c []
  · rw [recipeBookData_write_eq r hr]
    simpa using recipeBookData_read_encode r hr []
  · rw [clientPlayPacket_write_eq pk hpk]
    simpa using clientPlayPacket_read_encode pk hpk [] (fun _ _ => rfl)

/-- Witness for C1 at the spec §8 scenario instances. -/
theorem c1_roundtrip_identity_witness :
    ClientSettings.read (csScenario.write []) = .ok (csScenario, []) ∧
    KeepAlive.read (kaScenario.write []) = .ok (kaScenario, []) :=
  ⟨c1_roundtrip_identity.1 csScenario (by decide),
   c1_roundtrip_identity.2.1 kaScenario (by decide)⟩

/-- C2: a registry envelope encodes as the bound ID's VarInt followed by
the packet's fields in schema-declared order; a tagged variant encodes as
its discriminant followed by that variant's fields in declared order; and
decoding reads the same layout in the same order. -/
theorem c2_wire_layout :
    (∀ p : ClientSettings, p.Valid → ∀ buf : List Nat,
      ClientPlayPacket.write (.ClientSettings p) buf =
        buf ++ varIntBytes 5 ++ clientSettingsBytes p) ∧
    (∀ p : KeepAlive, p.Valid → ∀ buf : List Nat,
      ClientPlayPacket.write (.KeepAlive p) buf =
        buf ++ varIntBytes 16 ++ keepAliveBytes p) ∧
    (∀ p : ClientSettings, p.Valid → ∀ buf : List Nat,
      ClientSettings.write p buf =
        buf ++ varIntBytes p.locale.length ++ p.locale ++
          [p.view_distance] ++ varIntBytes p.chat_mode.discriminant ++
          [if p.chat_colors then 1 else 0] ++ [p.displayed_skin_parts] ++
          varIntBytes p.main_hand) ∧
    (∀ rid : List Nat, StringValid rid → ∀ buf : List Nat,
      RecipeBookData.write (.DisplayedRecipe rid) buf =
        buf ++ varIntBytes 0 ++ varIntBytes rid.length ++ rid) ∧
    (∀ c : ChatMode, ∀ buf : List Nat,
      c.write buf = buf ++ varIntBytes c.discriminant) ∧
    (∀ p : ClientSettings, p.Valid → ∀ rest : List Nat,
      ClientPlayPacket.read (varIntBytes 5 ++ (clientSettingsBytes p ++ rest)) =
        .ok (.ClientSettings p, rest)) ∧
    (∀ rid : List Nat, StringValid rid → ∀ rest : List Nat,
      RecipeBookData.read
          (varIntBytes 0 ++ (varIntBytes rid.length ++ (rid ++ rest))) =
        .ok (.DisplayedRecipe rid, rest)) := by
  refine ⟨fun p hp buf => ?_, fun p hp buf => ?_, fun p hp buf => ?_,
    fun rid hr buf => ?_, fun c buf => ?_, fun p hp rest => ?_,
    fun rid hr rest => ?_⟩
  · rw [clientPlayPacket_write_eq (.ClientSettings p) hp]
    simp [clientPlayPacketBytes, List.append_assoc]
  · rw [clientPlayPacket_write_eq (.KeepAlive p) hp]
    simp [clientPlayPacketBytes, List.append_assoc]
  · rw [clientSettings_write_eq p hp]
    simp [clientSettingsBytes, chatModeBytes, List.append_assoc]
  · rw [recipeBookData_write_eq (.DisplayedRecipe rid) hr]
    simp [recipeBookDataBytes, List.append_assoc]
  · rw [chatMode_write_eq]
    simp [chatModeBytes]
  · have h := clientPlayPacket_read_encode (.ClientSettings p) hp rest
      (fun q h => by simp at h)
    simpa [clientPlayPacketBytes, List.append_assoc] using h
  · have h := recipeBookData_read_encode (.DisplayedRecipe rid) hr rest
    simpa [recipeBookDataBytes, List.append_assoc] using h

/-- Witness for C2 at the spec §8 scenario instance. -/
theorem c2_wire_layout_witness :
    ClientPlayPacket.write (.ClientSettings csScenario) [] =
      [] ++ varIntBytes 5 ++ clientSettingsBytes csScenario :=
  c2_wire_layout.1 csScenario (by decide) []

/-- C3: decoding a registry envelope whose well-formed VarInt packet ID
is not bound in the registry fails with `UnknownPacketId` carrying that
ID, never panics (the reader is a total function), and never inspects
the bytes after the ID (the result is the same for every tail). -/
theorem c3_unknown_packet_id :
    ∀ id : Nat, id < 2 ^ 32 → id ≠ 5 → id ≠ 11 → id ≠ 16 →
      ∀ rest : List Nat,
        ClientPlayPacket.read (varIntBytes id ++ rest) =
          .error (.unknownPacketId id) :=
  fun id hd h5 h11 h16 rest =>
    clientPlayPacket_read_unknown id hd h5 h11 h16 rest

/-- Witness for C3 at the spec §8 scenario: packet ID `999`, with
arbitrary trailing bytes. -/
theorem c3_unknown_packet_id_witness :
    ClientPlayPacket.read (varIntBytes 999 ++ [1, 2, 3]) =
      .error (.unknownPacketId 999) :=
  c3_unknown_packet_id 999 (by norm_num) (by norm_num) (by norm_num)
    (by norm_num) [1, 2, 3]

/-- C4: decoding a tagged variant reads the discriminant first; an
unmatched discriminant fails with `UnknownVariant` carrying the enum's
type name and the raw value (never a default); a matched discriminant
decodes exactly that variant's field sequence (possibly empty) in
declared order. -/
theorem c4_unknown_variant :
    (∀ d : Nat, d < 2 ^ 32 → d ≠ 0 → d ≠ 1 → d ≠ 2 → ∀ rest : List Nat,
      ChatMode.read (varIntBytes d ++ rest) =
        .error (.unknownVariant "ChatMode" d)) ∧
    (∀ d : Nat, d < 2 ^ 32 → d ≠ 0 → d ≠ 1 → ∀ rest : List Nat,
      RecipeBookData.read (varIntBytes d ++ rest) =
        .error (.unknownVariant "RecipeBookData" d)) ∧
    (∀ c : ChatMode, ∀ rest : List Nat,
      ChatMode.read (varIntBytes c.discriminant ++ rest) = .ok (c, rest)) ∧
    (∀ rid : List Nat, StringValid rid → ∀ rest : List Nat,
      RecipeBookData.read
          (varIntBytes 0 ++ (varIntBytes rid.length ++ (rid ++ rest))) =
        .ok (.DisplayedRecipe rid, rest)) := by
  refine ⟨fun d hd h0 h1 h2 rest => chatMode_read_unknown d hd h0 h1 h2 rest,
    fun d hd h0 h1 rest => recipeBookData_read_unknown d hd h0 h1 rest,
    fun c rest => ?_, fun rid hr rest => ?_⟩
  · have h := chatMode_read_encode c rest
    rwa [chatModeBytes] at h
  · have h := recipeBookData_read_encode (.DisplayedRecipe rid) hr rest
    simpa [recipeBookDataBytes, List.append_assoc] using h

/-- Witness for C4: unknown discriminant `7` for `ChatMode`, and the
matched discriminant `1` decoding to `CommandsOnly`. -/
theorem c4_unknown_variant_witness :
    ChatMode.read (varIntBytes 7 ++ [9]) =
      .error (.unknownVariant "ChatMode" 7) ∧
    ChatMode.read (varIntBytes (ChatMode.discriminant .CommandsOnly) ++ [9]) =
      .ok (.CommandsOnly, [9]) :=
  ⟨c4_unknown_variant.1 7 (by norm_num) (by norm_num) (by norm_num)
      (by norm_num) [9],
   c4_unknown_variant.2.2.1 .CommandsOnly [9]⟩

/-- C5: when a field read fails, the packet/variant read returns the
underlying cause wrapped with the offending field's name and the
enclosing type's name; the wrapping keeps the root cause (last conjunct)
and no error is replaced by a default value. -/
theorem c5_error_wrapping :
    (∀ l : List Nat, ∀ e, readString l = .error e →
      ClientSettings.read l =
        .error (.context "failed to read field `locale` of packet `ClientSettings`" e)) ∧
    (∀ l : List Nat, ∀ s l1 e, readString l = .ok (s, l1) →
      readU8 l1 = .error e →
      ClientSettings.read l =
        .error (.context "failed to read field `view_distance` of packet `ClientSettings`" e)) ∧
    (∀ l : List Nat, ∀ s l1 v1 l2 e, readString l = .ok (s, l1) →
      readU8 l1 = .ok (v1, l2) → ChatMode.read l2 = .error e →
      ClientSettings.read l =
        .error (.context "failed to read field `chat_mode` of packet `ClientSettings`" e)) ∧
    (∀ l : List Nat, ∀ s l1 v1 l2 c l3 e, readString l = .ok (s, l1) →
      readU8 l1 = .ok (v1, l2) → ChatMode.read l2 = .ok (c, l3) →
      readBool l3 = .error e →
      ClientSettings.read l =
        .error (.context "failed to read field `chat_colors` of packet `ClientSettings`" e)) ∧
    (∀ l : List Nat, ∀ s l1 v1 l2 c l3 b l4 e, readString l = .ok (s, l1) →
      readU8 l1 = .ok (v1, l2) → ChatMode.read l2 = .ok (c, l3) →
      readBool l3 = .ok (b, l4) → readU8 l4 = .error e →
      ClientSettings.read l =
        .error (.context "failed to read field `displayed_skin_parts` of packet `ClientSettings`" e)) ∧
    (∀ l : List Nat, ∀ s l1 v1 l2 c l3 b l4 v2 l5 e,
      readString l = .ok (s, l1) → readU8 l1 = .ok (v1, l2) →
      ChatMode.read l2 = .ok (c, l3) → readBool l3 = .ok (b, l4) →
      readU8 l4 = .ok (v2, l5) → readVarInt l5 = .error e →
      ClientSettings.read l =
        .error (.context "failed to read field `main_hand` of packet `ClientSettings`" e)) ∧
    (∀ l : List Nat, ∀ e, readVarInt l = .error e →
      RecipeBookData.read l =
        .error (.context "failed to read discriminant for enum type RecipeBookData" e)) ∧
    (∀ l : List Nat, ∀ l1 e, readVarInt l = .ok (0, l1) →
      readString l1 = .error e →
      RecipeBookData.read l =
        .error (.context "failed to read field `recipe_id` of enum `RecipeBookData::DisplayedRecipe`" e)) ∧
    (∀ msg : String, ∀ e : CodecError,
      (CodecError.context msg e).rootCause = e.rootCause) := by
  refine ⟨fun l e h1 => ?_, fun l s l1 e h1 h2 => ?_,
    fun l s l1 v1 l2 e h1 h2 h3 => ?_,
    fun l s l1 v1 l2 c l3 e h1 h2 h3 h4 => ?_,
    fun l s l1 v1 l2 c l3 b l4 e h1 h2 h3 h4 h5 => ?_,
    fun l s l1 v1 l2 c l3 b l4 v2 l5 e h1 h2 h3 h4 h5 h6 => ?_,
    fun l e h1 => ?_, fun l l1 e h1 h2 => ?_,
    fun msg e => rootCause_context msg e⟩
  · simp [ClientSettings.read, h1, withCtx]
  · simp [ClientSettings.read, h1, h2, withCtx]
  · simp [ClientSettings.read, h1, h2, h3, withCtx]
  · simp [ClientSettings.read, h1, h2, h3, h4, withCtx]
  · simp [ClientSettings.read, h1, h2, h3, h4, h5, withCtx]
  · simp [ClientSettings.read, h1, h2, h3, h4, h5, h6, withCtx]
  · simp [RecipeBookData.read, h1, withCtx]
  · simp [RecipeBookData.read, h1, h2, withCtx]

/-- Witness for C5: a truncated and an invalid-UTF-8 locale field,
each wrapped with the field and packet names over the intact root
cause. -/
theorem c5_error_wrapping_witness :
    ClientSettings.read [] =
      .error (.context "failed to read field `locale` of packet `ClientSettings`"
        .truncatedInput) ∧
    ClientSettings.read [1, 200] =
      .error (.context "failed to read field `locale` of packet `ClientSettings`"
        .invalidUtf8) :=
  ⟨c5_error_wrapping.1 [] .truncatedInput (by decide),
   c5_error_wrapping.1 [1, 200] .invalidUtf8 (by decide)⟩

/-- C6: for every 32-bit value, the VarInt encoder emits the minimal
number of 7-bit groups (at most 5; one group for values below 128 and
never a group to spare above), decoding the encoding returns the value,
and a fifth continuation bit fails with `CorruptVarInt`. -/
theorem c6_varint_minimal :
    (∀ n : Nat, n < 2 ^ 32 → readVarInt (varIntBytes n) = .ok (n, [])) ∧
    (∀ n : Nat, n < 2 ^ 32 → ∀ buf : List Nat,
      writeVarInt n buf = buf ++ varIntBytes n) ∧
    (∀ n : Nat, n < 2 ^ 32 → (varIntBytes n).length ≤ 5) ∧
    (∀ n : Nat, n < 128 ^ (varIntBytes n).length) ∧
    (∀ n : Nat, 128 ≤ n → 128 ^ ((varIntBytes n).length - 1) ≤ n) ∧
    (∀ n : Nat, n < 128 → (varIntBytes n).length = 1) ∧
    (∀ b0 b1 b2 b3 b4 : Nat, ∀ rest : List Nat,
      128 ≤ b0 → b0 < 256 → 128 ≤ b1 → b1 < 256 → 128 ≤ b2 → b2 < 256 →
      128 ≤ b3 → b3 < 256 → 128 ≤ b4 → b4 < 256 →
      readVarInt (b0 :: b1 :: b2 :: b3 :: b4 :: rest) =
        .error .corruptVarInt) := by
  refine ⟨fun n h => by simpa using readVarInt_encode n h [],
    fun n h buf => writeVarInt_eq n h buf,
    fun n h => varIntBytes_length_le n h,
    fun n => varIntBytes_upper n,
    fun n h => varIntBytes_lower n h,
    fun n h => by rw [varIntBytes_unfold, if_pos h]; rfl,
    fun b0 b1 b2 b3 b4 rest u0 v0 u1 v1 u2 v2 u3 v3 u4 v4 =>
      readVarInt_corrupt b0 b1 b2 b3 b4 rest ⟨u0, v0⟩ ⟨u1, v1⟩ ⟨u2, v2⟩
        ⟨u3, v3⟩ ⟨u4, v4⟩⟩

/-- Witness for C6: the two-group value 300 and a five-continuation
stream. -/
theorem c6_varint_minimal_witness :
    readVarInt (varIntBytes 300) = .ok (300, []) ∧
    readVarInt [128, 129, 130, 131, 132] = .error .corruptVarInt :=
  ⟨c6_varint_minimal.1 300 (by norm_num),
   c6_varint_minimal.2.2.2.2.2.2 128 129 130 131 132 []
     (by norm_num) (by norm_num) (by norm_num) (by norm_num) (by norm_num)
     (by norm_num) (by norm_num) (by norm_num) (by norm_num) (by norm_num)⟩

/-- C7: for every packet type bound in the registry enum, widening (the
envelope constructor, a total function) followed by narrowing
(`destructure`) returns `some` of the original packet, and narrowing an
envelope holding a different bound type returns `none`. -/
theorem c7_narrow_widen :
    (∀ p : ClientSettings,
      ClientSettings.destructure (.ClientSettings p) = some p) ∧
    (∀ p : PluginMessage,
      PluginMessage.destructure (.PluginMessage p) = some p) ∧
    (∀ p : KeepAlive, KeepAlive.destructure (.KeepAlive p) = some p) ∧
    (∀ p : PluginMessage, ClientSettings.destructure (.PluginMessage p) = none) ∧
    (∀ p : KeepAlive, ClientSettings.destructure (.KeepAlive p) = none) ∧
    (∀ p : ClientSettings, PluginMessage.destructure (.ClientSettings p) = none) ∧
    (∀ p : KeepAlive, PluginMessage.destructure (.KeepAlive p) = none) ∧
    (∀ p : ClientSettings, KeepAlive.destructure (.ClientSettings p) = none) ∧
    (∀ p : PluginMessage, KeepAlive.destructure (.PluginMessage p) = none) :=
  ⟨fun _ => rfl, fun _ => rfl, fun _ => rfl, fun _ => rfl, fun _ => rfl,
   fun _ => rfl, fun _ => rfl, fun _ => rfl, fun _ => rfl⟩

/-- C8 counterexample: `PluginMessage` ends in a length-inferred byte
payload, so decoding a strict prefix of a valid encoding succeeds and
returns a different value — the claim fails as stated. The encoding of
the channel byte string of one byte 97 with payload bytes 1, 2, 3 is
5 bytes long; its 4-byte prefix decodes successfully to the packet with
payload bytes 1, 2. -/
theorem c8_truncation_cex :
    PluginMessage.read ((PluginMessage.write ⟨[97], [1, 2, 3]⟩ []).take 4) =
      .ok (⟨[97], [1, 2]⟩, []) ∧
    4 < (PluginMessage.write ⟨[97], [1, 2, 3]⟩ []).length ∧
    (⟨[97], [1, 2]⟩ : PluginMessage) ≠ ⟨[97], [1, 2, 3]⟩ := by
  have hv1 : varIntBytes 1 = [1] := by rw [varIntBytes_unfold]; norm_num
  have hw : PluginMessage.write ⟨[97], [1, 2, 3]⟩ [] = [1, 97, 1, 2, 3] := by
    simp [PluginMessage.write, writeString, writeVarInt,
      writeLengthInferredVecU8, hv1]
  refine ⟨?_, ?_, by decide⟩
  · rw [hw]; decide
  · rw [hw]; decide

/-- C8 amended: for every valid encoded packet whose schema has no
length-inferred trailing payload (here: every embedded packet except
`PluginMessage`), decoding any strict prefix of its bytes fails, with a
`TruncatedInput`, `InvalidUtf8` or `CorruptVarInt` root cause; it never
succeeds with a different value and the reader is total. -/
theorem c8_truncation_safety_amended :
    (∀ p : ClientSettings, p.Valid → ∀ k, k < (p.write []).length →
      ∃ e, ClientSettings.read ((p.write []).take k) = .error e ∧
        CodecError.IsCorruption e.rootCause) ∧
    (∀ p : KeepAlive, p.Valid → ∀ k, k < (p.write []).length →
      ∃ e, KeepAlive.read ((p.write []).take k) = .error e ∧
        CodecError.IsCorruption e.rootCause) := by
  constructor
  · intro p hp k hk
    rw [clientSettings_write_eq p hp] at hk ⊢
    simp only [List.nil_append] at hk ⊢
    exact clientSettings_read_take p hp k hk
  · intro p hp k hk
    rw [keepAlive_write_eq p hp] at hk ⊢
    simp only [List.nil_append] at hk ⊢
    refine ⟨_, keepAlive_read_take p k hk, ?_⟩
    simp [CodecError.rootCause, CodecError.IsCorruption]

/-- Witness for the amended C8 at the spec §8 scenario instance, cut
after 3 bytes. -/
theorem c8_truncation_safety_amended_witness :
    ∃ e, ClientSettings.read ((csScenario.write []).take 3) = .error e ∧
      CodecError.IsCorruption e.rootCause := by
  have hw : csScenario.write [] = [5, 101, 110, 95, 85, 83, 10, 0, 1, 127, 1] := by
    simp [csScenario, ClientSettings.write, writeString, writeVarInt, writeU8,
      writeBool, ChatMode.write, varIntBytes_unfold]
  exact c8_truncation_safety_amended.1 csScenario (by decide) 3
    (by rw [hw]; decide)

/-- C9: encoding is a total function whose only effect is appending
bytes determined by the value (the prior buffer contents survive as a
prefix), and decoding's only state effect is advancing the cursor (the
remaining bytes are a suffix of the input). -/
theorem c9_frame_conditions :
    (∀ p : ClientSettings, ∀ buf : List Nat, p.write buf = buf ++ p.write []) ∧
    (∀ p : KeepAlive, ∀ buf : List Nat, p.write buf = buf ++ p.write []) ∧
    (∀ p : PluginMessage, ∀ buf : List Nat, p.write buf = buf ++ p.write []) ∧
    (∀ c : ChatMode, ∀ buf : List Nat, c.write buf = buf ++ c.write []) ∧
    (∀ r : RecipeBookData, ∀ buf : List Nat, r.write buf = buf ++ r.write []) ∧
    (∀ pk : ClientPlayPacket, ∀ buf : List Nat,
      pk.write buf = buf ++ pk.write []) ∧
    (∀ l : List Nat, ∀ p r, ClientSettings.read l = .ok (p, r) → r <:+ l) ∧
    (∀ l : List Nat, ∀ pk r, ClientPlayPacket.read l = .ok (pk, r) → r <:+ l) :=
  ⟨clientSettings_write_shift, keepAlive_write_shift,
   pluginMessage_write_shift, chatMode_write_shift,
   recipeBookData_write_shift, clientPlayPacket_write_shift,
   fun _ _ _ h => clientSettings_read_suffix h,
   fun _ _ _ h => clientPlayPacket_read_suffix h⟩

/-- Witness for C9's cursor clause at the scenario instance's
encoding. -/
theorem c9_frame_conditions_witness :
    ([] : List Nat) <:+ csScenario.write [] := by
  have hw : csScenario.write [] = [5, 101, 110, 95, 85, 83, 10, 0, 1, 127, 1] := by
    simp [csScenario, ClientSettings.write, writeString, writeVarInt, writeU8,
      writeBool, ChatMode.write, varIntBytes_unfold]
  exact c9_frame_conditions.2.2.2.2.2.2.1 (csScenario.write []) csScenario []
    (by rw [hw]; decide)

/-- C10: for every packet type bound in the registry enum, the static
`VariantOf::discriminant_id` equals the `id()` of every envelope value
wrapping that type, both equal the binding's numeric literal, and the
encoder writes exactly that ID's VarInt before the payload. -/
theorem c10_id_agreement :
    (∀ p : ClientSettings,
      (ClientPlayPacket.ClientSettings p).id = ClientSettings.discriminant_id) ∧
    (∀ p : PluginMessage,
      (ClientPlayPacket.PluginMessage p).id = PluginMessage.discriminant_id) ∧
    (∀ p : KeepAlive,
      (ClientPlayPacket.KeepAlive p).id = KeepAlive.discriminant_id) ∧
    ClientSettings.discriminant_id = 5 ∧
    PluginMessage.discriminant_id = 11 ∧
    KeepAlive.discriminant_id = 16 ∧
    (∀ p : ClientSettings, (ClientPlayPacket.ClientSettings p).write [] =
      varIntBytes ClientSettings.discriminant_id ++ p.write []) ∧
    (∀ p : PluginMessage, (ClientPlayPacket.PluginMessage p).write [] =
      varIntBytes PluginMessage.discriminant_id ++ p.write []) ∧
    (∀ p : KeepAlive, (ClientPlayPacket.KeepAlive p).write [] =
      varIntBytes KeepAlive.discriminant_id ++ p.write []) := by
  refine ⟨fun p => rfl, fun p => rfl, fun p => rfl, rfl, rfl, rfl,
    fun p => ?_, fun p => ?_, fun p => ?_⟩
  · simp only [ClientPlayPacket.write, ClientPlayPacket.id]
    rw [clientSettings_write_shift]
    simp [writeVarInt, ClientSettings.discriminant_id]
  · simp only [ClientPlayPacket.write, ClientPlayPacket.id]
    rw [pluginMessage_write_shift]
    simp [writeVarInt, PluginMessage.discriminant_id]
  · simp only [ClientPlayPacket.write, ClientPlayPacket.id]
    rw [keepAlive_write_shift]
    simp [writeVarInt, KeepAlive.discriminant_id]
